import Mathlib

/-
Shallow embedding of the playback synchronization and chunk-buffering engine of
the open-football match UI:

  * src/ui/src/app/match/services/match.data.service.ts  (MatchDataService)
  * src/ui/src/app/match/services/match.play.service.ts  (MatchPlayService)
  * src/ui/src/app/match/services/match.service.ts       (DTO definitions)

Timestamps and virtual times are JS numbers; the claims under study only involve
exact comparisons and additions of (integer-valued) milliseconds, so sample
timestamps and requested times are embedded as Int, and the clock quantities
(which are multiplied by a fractional speed such as 0.7) as Rat.  Arrays become
lists (no holes), JS objects keyed by numeric ids become association lists in
key order, and Set<number> becomes a duplicate-free list.
-/

/-- ObjectPositionDto from match.service.ts: one time-stamped sample. -/
structure ObjectPositionDto where
  timestamp : Int
  position : List Rat
deriving DecidableEq

/-- MatchDataDto from match.service.ts: the merged time series per entity.
The players field is a JS object keyed by player id, embedded as an
association list in enumeration order. -/
structure MatchDataDto where
  players : List (Nat × List ObjectPositionDto)
  ball : List ObjectPositionDto
deriving DecidableEq

/-- MatchBallDto from match.service.ts: graphics object (its x, y, scale) plus
the mutable cursor currentCoordIdx.  The source initializes currentCoordIdx
to 0; obj starts null and is attached by the component before playback, so it
is embedded as always-present coordinates. -/
structure MatchBallDto where
  objX : Rat
  objY : Rat
  objScale : Rat
  currentCoordIdx : Int
deriving DecidableEq

/-- MatchPlayerDto from match.service.ts (the playback-relevant fields):
player id, graphics position, and the mutable cursor currentCoordIdx. -/
structure MatchPlayerDto where
  id : Nat
  objX : Rat
  objY : Rat
  currentCoordIdx : Int
deriving DecidableEq

/-- MatchDto from match.service.ts (the playback-relevant fields): the ball
and the roster of players, owners of the per-entity cursors. -/
structure MatchDto where
  ball : MatchBallDto
  players : List MatchPlayerDto
deriving DecidableEq

/-- PlayerDataResultModel from match.data.service.ts. -/
structure PlayerDataResultModel where
  id : Nat
  position : ObjectPositionDto
deriving DecidableEq

/-- MatchResultData from match.data.service.ts. -/
structure MatchResultData where
  players : List PlayerDataResultModel
  ball : ObjectPositionDto
deriving DecidableEq

/-- The whole mutable state of MatchDataService: the match DTO (cursor owner),
the merged matchData, the loaded-chunk set, the chunk duration and the
viewport resolution. -/
structure MatchDataServiceState where
  matchRef : Option MatchDto
  matchData : Option MatchDataDto
  loadedChunks : List Nat
  chunkDurationMs : Int
  width : Rat
  height : Rat
deriving DecidableEq

/-- Cursor clamping at the top of getData (match.data.service.ts lines
145-151 for the ball, 197-203 for a player):
first `if (idx >= len) idx = len - 1`, then `if (idx < 0) idx = 0`. -/
def clampCursor (len : Nat) (cursor : Int) : Int :=
  let c1 := if cursor ≥ (len : Int) then (len : Int) - 1 else cursor
  if c1 < 0 then 0 else c1

/-- The forward-scan while loop of getData (lines 172-180 / 219-229):
while the sample at the cursor has timestamp < requested time and the cursor
is not at the last index, advance the cursor; a missing sample stops the scan
with the cursor already advanced.  The loop body runs at most
(length - 1 - c) times, so any fuel of at least the list length makes the
recursion equal to the source loop. -/
def scanForwardAux (samples : List ObjectPositionDto) (timestamp : Int) :
    Nat → Int → Nat → Nat
  | 0, _, c => c
  | fuel + 1, ts, c =>
    if ts < timestamp ∧ c < samples.length - 1 then
      match samples[c + 1]? with
      | some d => scanForwardAux samples timestamp fuel d.timestamp (c + 1)
      | none => c + 1
    else c

/-- The forward scan with enough fuel to emulate the source while loop. -/
def scanForward (samples : List ObjectPositionDto) (timestamp : Int)
    (ts : Int) (c : Nat) : Nat :=
  scanForwardAux samples timestamp samples.length ts c

/-- The per-track resolution algorithm of getData, shared verbatim between the
ball track (lines 144-189) and each player track (lines 196-241): clamp the
cursor, return null if the sample there is missing, reset the cursor to 0 on a
backward seek or a stale gap over 60000 ms, scan forward, and return the
sample at the cursor clamped to the last valid index.  Returns the resolved
sample (null when absent) and the new value of currentCoordIdx. -/
def resolveTrack (samples : List ObjectPositionDto) (timestamp : Int)
    (cursor : Int) : Option ObjectPositionDto × Int :=
  let len := samples.length
  let c0 := clampCursor len cursor
  match samples[c0.toNat]? with
  | none => (none, c0)
  | some ballData =>
    -- If seeking backward OR if current timestamp is way ahead, reset to 0
    let c1 : Nat :=
      if ballData.timestamp > timestamp ∨ timestamp - ballData.timestamp > 60000
      then 0 else c0.toNat
    match samples[c1]? with
    | none => (none, (c1 : Int))
    | some d1 =>
      let cFin := scanForward samples timestamp d1.timestamp c1
      let ballIndex := min cFin (len - 1)
      (samples[ballIndex]?, (cFin : Int))

/-- In-place mutation of the found player DTO: set its currentCoordIdx
(the source mutates the object returned by players.find). -/
def setPlayerCursor (ps : List MatchPlayerDto) (pid : Nat) (c : Int) :
    List MatchPlayerDto :=
  match ps with
  | [] => []
  | p :: rest =>
    if p.id = pid then { p with currentCoordIdx := c } :: rest
    else p :: setPlayerCursor rest pid c

/-- One iteration of the Object.entries(players).forEach loop inside getData
(lines 193-244): find the player DTO by id, and when found with a non-empty
sample sequence, run the per-track resolution, store the new cursor, and push
the resolved position when present. -/
def getDataPlayersStep (timestamp : Int)
    (acc : List PlayerDataResultModel × List MatchPlayerDto)
    (entry : Nat × List ObjectPositionDto) :
    List PlayerDataResultModel × List MatchPlayerDto :=
  let results := acc.1
  let ps := acc.2
  match ps.find? (fun p => p.id = entry.1) with
  | none => (results, ps)
  | some player =>
    if entry.2.length > 0 then
      let r := resolveTrack entry.2 timestamp player.currentCoordIdx
      let ps1 := setPlayerCursor ps entry.1 r.2
      match r.1 with
      | some pos => (results ++ [⟨entry.1, pos⟩], ps1)
      | none => (results, ps1)
    else (results, ps)

/-- getData from match.data.service.ts (lines 144-247).  Operates on the
non-null match DTO and matchData (the source dereferences both with the
non-null assertion operator).  Returns the resolved data (null when the ball
sample at the clamped cursor is absent) together with the mutated match DTO
(updated ball and player cursors). -/
def MatchDataService.getData (m : MatchDto) (matchData : MatchDataDto)
    (timestamp : Int) : Option MatchResultData × MatchDto :=
  let rb := resolveTrack matchData.ball timestamp m.ball.currentCoordIdx
  let m1 : MatchDto := { m with ball := { m.ball with currentCoordIdx := rb.2 } }
  match rb.1 with
  | none => (none, m1)
  | some ballResult =>
    let pr := matchData.players.foldl (getDataPlayersStep timestamp) ([], m1.players)
    (some ⟨pr.1, ballResult⟩, { m1 with players := pr.2 })

/-- translateToField from match.data.service.ts (lines 117-142): linear
scaling with clamping of the simulation-space coordinates to the field
bounds. -/
def MatchDataService.translateToField (width height : Rat) (x y : Rat)
    (z : Rat := 0) : Rat × Rat × Rat :=
  let real_field_width := width - 100
  let real_field_height := height
  let inner_field_width : Rat := 840
  let inner_field_height : Rat := 545
  let offsetX : Rat := 20
  let offsetY : Rat := 70
  let scale_x := (real_field_width - 2 * offsetX) / inner_field_width
  let scale_y := (real_field_height - 2 * offsetY) / inner_field_height
  let clampedX := max 0 (min inner_field_width x)
  let clampedY := max 0 (min inner_field_height y)
  (offsetX + 42 + clampedX * scale_x, offsetY + clampedY * scale_y - 10, z)

/-- refreshData from match.data.service.ts (lines 79-115): resolve the data at
the timestamp; on null return immediately, otherwise move the ball graphics
object (the second assignment to obj.y with the visual z offset supersedes the
first one in the source) and every resolved player graphics object. -/
def MatchDataService.refreshData (width height : Rat) (m : MatchDto)
    (matchData : MatchDataDto) (timestamp : Int) : MatchDto :=
  let r := MatchDataService.getData m matchData timestamp
  match r.1 with
  | none => r.2
  | some lastData =>
    let m1 := r.2
    let z := (lastData.ball.position.getD 2 0)
    let bp := MatchDataService.translateToField width height
      (lastData.ball.position.getD 0 0) (lastData.ball.position.getD 1 0) z
    let heightScale := 1 + min (z / 15) (2 / 5)
    let visualYOffset := z * (1 / 2)
    let ball1 := { m1.ball with
      objX := bp.1
      objY := bp.2.1 - visualYOffset
      objScale := heightScale }
    let players1 := m1.players.map fun player =>
      match lastData.players.find? (fun p => p.id = player.id) with
      | none => player
      | some pd =>
        let pp := MatchDataService.translateToField width height
          (pd.position.position.getD 0 0) (pd.position.position.getD 1 0)
        { player with objX := pp.1, objY := pp.2.1 }
    { ball := ball1, players := players1 }

/-- Set<number>.add: append the chunk number unless already present. -/
def insertChunk (s : List Nat) (n : Nat) : List Nat :=
  if s.contains n then s else s ++ [n]

/-- Truthiness test matchData.players[playerId] from mergeMatchData. -/
def containsKey (ps : List (Nat × List ObjectPositionDto)) (k : Nat) : Bool :=
  ps.any (fun p => p.1 = k)

/-- matchData.players[playerId].push(...value): append to the entry with the
given key. -/
def appendToKey (ps : List (Nat × List ObjectPositionDto)) (k : Nat)
    (v : List ObjectPositionDto) : List (Nat × List ObjectPositionDto) :=
  ps.map fun p => if p.1 = k then (p.1, p.2 ++ v) else p

/-- The player-merge loop of mergeMatchData (lines 40-50): for each chunk
entry, append to the existing track or create it. -/
def mergePlayers (store chunk : List (Nat × List ObjectPositionDto)) :
    List (Nat × List ObjectPositionDto) :=
  chunk.foldl
    (fun acc kv =>
      if containsKey acc kv.1 then appendToKey acc kv.1 kv.2 else acc ++ [kv])
    store

/-- mergeMatchData from match.data.service.ts (lines 27-53): when no data is
present yet, adopt the chunk wholesale; otherwise append the ball samples
(when the chunk has any) and merge the player tracks; finally record the
chunk number in the loaded set. -/
def MatchDataService.mergeMatchData (st : MatchDataServiceState)
    (chunkData : MatchDataDto) (chunkNumber : Nat) : MatchDataServiceState :=
  match st.matchData with
  | none =>
    { st with
      matchData := some chunkData
      loadedChunks := insertChunk st.loadedChunks chunkNumber }
  | some md =>
    let ball := if chunkData.ball.length > 0 then md.ball ++ chunkData.ball else md.ball
    let players := mergePlayers md.players chunkData.players
    { st with
      matchData := some { players := players, ball := ball }
      loadedChunks := insertChunk st.loadedChunks chunkNumber }

/-- reset from match.data.service.ts (lines 68-72): clears the loaded-chunk
set, zeroes the chunk duration and drops matchData.  It touches no other
field of the service. -/
def MatchDataService.reset (st : MatchDataServiceState) : MatchDataServiceState :=
  { st with loadedChunks := [], chunkDurationMs := 0, matchData := none }

/-- Lookup of one entity track in the players association object. -/
def lookupSeq (ps : List (Nat × List ObjectPositionDto)) (k : Nat) :
    List ObjectPositionDto :=
  (((ps.find? (fun p => p.1 = k)).map Prod.snd)).getD []

/-- Modelled from the spec (section 8, Backward-seek reset): the correct
nearest-at-or-before-t sample of a timestamp-ordered track, used to compare
the resolver against the specified result. -/
def specNearestAtOrBefore (samples : List ObjectPositionDto) (t : Int) :
    Option ObjectPositionDto :=
  (samples.filter (fun d => d.timestamp ≤ t)).getLast?

/-- The reset rule of getData does not fire for this call: the sample at the
clamped cursor exists, is not ahead of the requested time, and is not more
than 60000 ms behind it. -/
def noResetAt (samples : List ObjectPositionDto) (t : Int) (cursor : Int) : Bool :=
  match samples[(clampCursor samples.length cursor).toNat]? with
  | none => false
  | some d => !(d.timestamp > t || t - d.timestamp > 60000)

/-- The reset rule fires in none of the successive getData calls at the given
times, threading the cursor from call to call. -/
def noResetSeq (samples : List ObjectPositionDto) (cursor : Int) :
    List Int → Bool
  | [] => true
  | t :: rest =>
    noResetAt samples t cursor &&
      noResetSeq samples (resolveTrack samples t cursor).2 rest

/-- The resolved cursor positions of successive getData calls at the given
times, threading the cursor from call to call. -/
def resolveSeq (samples : List ObjectPositionDto) (cursor : Int) :
    List Int → List Int
  | [] => []
  | t :: rest =>
    let c := (resolveTrack samples t cursor).2
    c :: resolveSeq samples c rest

/-- PlaybackClock: MatchEvent from match.play.service.ts. -/
inductive MatchEvent where
  | None
  | InProcess
  | Paused
  | Ended
deriving DecidableEq

/-- The whole mutable state of MatchPlayService.  The rxjs subjects only
notify observers and carry no playback state, so they are not part of the
embedded state. -/
structure MatchPlayService where
  currentState : MatchEvent
  currentTime : Rat
  lastFrameTime : Rat
  playbackSpeed : Rat
  matchDurationMs : Rat
deriving DecidableEq

/-- stop from match.play.service.ts (lines 67-70). -/
def MatchPlayService.stop (st : MatchPlayService) : MatchPlayService :=
  { st with currentState := MatchEvent.Ended }

/-- incrementTime from match.play.service.ts (lines 44-55): add the delta,
then clamp to the match duration and stop when the end is reached. -/
def MatchPlayService.incrementTime (st : MatchPlayService) (deltaTime : Rat) :
    MatchPlayService :=
  let st1 := { st with currentTime := st.currentTime + deltaTime }
  if st1.matchDurationMs > 0 ∧ st1.currentTime ≥ st1.matchDurationMs then
    MatchPlayService.stop { st1 with currentTime := st1.matchDurationMs }
  else st1

/-- tick from match.play.service.ts (lines 29-42): only effective in
InProcess; the first frame after the wall-clock reference was cleared only
captures the reference; later frames advance virtual time by the wall-clock
delta times the playback speed.  The refreshData call at line 40 mutates the
data service, not the clock, so it does not appear in the clock state. -/
def MatchPlayService.tick (st : MatchPlayService) (currentTime : Rat) :
    MatchPlayService :=
  if st.currentState = MatchEvent.InProcess then
    if st.lastFrameTime = 0 then
      { st with lastFrameTime := currentTime }
    else
      let deltaTime := (currentTime - st.lastFrameTime) * st.playbackSpeed
      MatchPlayService.incrementTime { st with lastFrameTime := currentTime } deltaTime
  else st

/-- startMatch from match.play.service.ts (lines 57-60): unconditionally
enters InProcess.  It does not touch lastFrameTime or currentTime. -/
def MatchPlayService.startMatch (st : MatchPlayService) : MatchPlayService :=
  { st with currentState := MatchEvent.InProcess }

/-- pause from match.play.service.ts (lines 62-65). -/
def MatchPlayService.pause (st : MatchPlayService) : MatchPlayService :=
  { st with currentState := MatchEvent.Paused }

/-- reset from match.play.service.ts (lines 72-75). -/
def MatchPlayService.reset (st : MatchPlayService) : MatchPlayService :=
  { st with currentTime := 0, lastFrameTime := 0 }

/-- setPlaybackSpeed from match.play.service.ts (lines 77-79). -/
def MatchPlayService.setPlaybackSpeed (st : MatchPlayService) (speed : Rat) :
    MatchPlayService :=
  { st with playbackSpeed := speed }

/-- setMatchDuration from match.play.service.ts (lines 25-27). -/
def MatchPlayService.setMatchDuration (st : MatchPlayService) (durationMs : Rat) :
    MatchPlayService :=
  { st with matchDurationMs := durationMs }

/-- seekToTime from match.play.service.ts (lines 81-95): set virtual time,
clear the wall-clock reference, and resume playback unless the state was
Paused right before the call. -/
def MatchPlayService.seekToTime (st : MatchPlayService) (timeMs : Rat) :
    MatchPlayService :=
  let shouldPlay := st.currentState ≠ MatchEvent.Paused
  let st1 := { st with currentTime := timeMs, lastFrameTime := 0 }
  if shouldPlay then { st1 with currentState := MatchEvent.InProcess } else st1

example : resolveTrack [⟨0, []⟩, ⟨100, []⟩] 50 1
    = (some ⟨100, []⟩, 1) := by decide

example : resolveTrack [⟨0, []⟩, ⟨100, []⟩, ⟨200, []⟩] 150 0
    = (some ⟨200, []⟩, 2) := by decide

example : resolveTrack [] 150 3 = (none, 0) := by decide

/- ### Clock lemmas and claims -/

/-- Claim C5: for a Running clock with speed 1.0 and a freshly cleared
wall-clock reference, a tick at wall-clock 100 leaves virtual time unchanged
(the frame only captures the reference) and a following tick at 200 advances
virtual time by exactly 100; in general every tick taken with a non-zero
reference and no end-of-match clamp advances virtual time by
(now - lastFrameTime) * speedMultiplier. -/
theorem clock_tick_advance (st : MatchPlayService)
    (hstate : st.currentState = MatchEvent.InProcess)
    (hframe : st.lastFrameTime = 0)
    (hspeed : st.playbackSpeed = 1)
    (hend : 0 < st.matchDurationMs → st.currentTime + 100 < st.matchDurationMs) :
    (st.tick 100).currentTime = st.currentTime
      ∧ ((st.tick 100).tick 200).currentTime = st.currentTime + 100
      ∧ ∀ (st2 : MatchPlayService) (now : Rat),
          st2.currentState = MatchEvent.InProcess → st2.lastFrameTime ≠ 0 →
          (0 < st2.matchDurationMs →
            st2.currentTime + (now - st2.lastFrameTime) * st2.playbackSpeed
              < st2.matchDurationMs) →
          (st2.tick now).currentTime
            = st2.currentTime + (now - st2.lastFrameTime) * st2.playbackSpeed := by
  have hgen : ∀ (st2 : MatchPlayService) (now : Rat),
      st2.currentState = MatchEvent.InProcess → st2.lastFrameTime ≠ 0 →
      (0 < st2.matchDurationMs →
        st2.currentTime + (now - st2.lastFrameTime) * st2.playbackSpeed
          < st2.matchDurationMs) →
      (st2.tick now).currentTime
        = st2.currentTime + (now - st2.lastFrameTime) * st2.playbackSpeed := by
    intro st2 now h1 h2 h3
    simp only [MatchPlayService.tick, MatchPlayService.incrementTime,
      MatchPlayService.stop, h1, if_true, if_neg h2]
    rw [if_neg]
    rintro ⟨hd, hge⟩
    exact absurd hge (not_le.mpr (h3 hd))
  have hfirst : st.tick 100 = { st with lastFrameTime := 100 } := by
    simp only [MatchPlayService.tick, hstate, if_true, if_pos hframe]
  refine ⟨by rw [hfirst], ?_, hgen⟩
  rw [hfirst]
  have hsub : (200 - 100 : Rat) = 100 := by norm_num
  have h2 := hgen { st with lastFrameTime := 100 } 200 hstate (by norm_num)
    (by intro hd
        have h100 := hend hd
        simpa [hspeed, hsub] using h100)
  simpa [hspeed, hsub] using h2

def stC5w : MatchPlayService :=
  { currentState := MatchEvent.InProcess, currentTime := 0, lastFrameTime := 0
    playbackSpeed := 1, matchDurationMs := 0 }

/-- Witness for C5 at a concrete clock state. -/
theorem clock_tick_advance_witness :
    (stC5w.tick 100).currentTime = stC5w.currentTime
      ∧ ((stC5w.tick 100).tick 200).currentTime = stC5w.currentTime + 100 := by
  have h := clock_tick_advance stC5w rfl rfl rfl
    (fun hd => absurd hd (by norm_num [stC5w]))
  exact ⟨h.1, h.2.1⟩

/-- Claim C6: with a positive match duration, any incrementTime whose delta
carries virtual time to or past the duration clamps virtual time to exactly
the duration and transitions the state to Ended; and a tick never pushes
virtual time beyond the known duration. -/
theorem clock_end_transition (st : MatchPlayService) :
    (∀ deltaTime : Rat, 0 < st.matchDurationMs →
        st.matchDurationMs ≤ st.currentTime + deltaTime →
        (st.incrementTime deltaTime).currentTime = st.matchDurationMs
          ∧ (st.incrementTime deltaTime).currentState = MatchEvent.Ended)
      ∧ (∀ now : Rat, 0 < st.matchDurationMs →
          st.currentTime ≤ st.matchDurationMs →
          (st.tick now).currentTime ≤ st.matchDurationMs) := by
  constructor
  · intro deltaTime hd hge
    simp only [MatchPlayService.incrementTime, MatchPlayService.stop]
    rw [if_pos ⟨hd, hge⟩]
    exact ⟨rfl, rfl⟩
  · intro now hd hle
    by_cases h1 : st.currentState = MatchEvent.InProcess
    · by_cases h2 : st.lastFrameTime = 0
      · simp only [MatchPlayService.tick, h1, if_true, if_pos h2]
        exact hle
      · simp only [MatchPlayService.tick, MatchPlayService.incrementTime,
          MatchPlayService.stop, h1, if_true, if_neg h2]
        split
        · exact le_refl _
        · next hc => exact le_of_lt (lt_of_not_ge (fun hge => hc ⟨hd, hge⟩))
    · simp only [MatchPlayService.tick, if_neg h1]
      exact hle

def stC6w : MatchPlayService :=
  { currentState := MatchEvent.InProcess, currentTime := 4000, lastFrameTime := 100
    playbackSpeed := 1, matchDurationMs := 5000 }

/-- Witness for C6 at a concrete clock state. -/
theorem clock_end_transition_witness :
    (stC6w.incrementTime 2000).currentTime = stC6w.matchDurationMs
      ∧ (stC6w.incrementTime 2000).currentState = MatchEvent.Ended
      ∧ (stC6w.tick 8000).currentTime ≤ stC6w.matchDurationMs := by
  have h := clock_end_transition stC6w
  have h1 := h.1 2000 (by norm_num [stC6w]) (by norm_num [stC6w])
  exact ⟨h1.1, h1.2, h.2 8000 (by norm_num [stC6w]) (by norm_num [stC6w])⟩

def stC7 : MatchPlayService :=
  { currentState := MatchEvent.Paused, currentTime := 10, lastFrameTime := 50
    playbackSpeed := 1, matchDurationMs := 0 }

/-- Claim C7 counterexample: from a Paused state with a non-zero wall-clock
reference (50), startMatch leaves lastFrameTime at 50, so the first tick after
the start, at wall-clock 200, advances virtual time from 10 to 160 rather
than by zero: startMatch does not reset the wall-clock delta reference. -/
theorem start_no_frame_reset_counterexample :
    stC7.currentState = MatchEvent.Paused
      ∧ stC7.startMatch.lastFrameTime = 50
      ∧ (stC7.startMatch.tick 200).currentTime = 160
      ∧ stC7.currentTime = 10
      ∧ (160 : Rat) ≠ 10 := by
  refine ⟨rfl, rfl, ?_, rfl, by norm_num⟩
  norm_num [stC7, MatchPlayService.startMatch, MatchPlayService.tick,
    MatchPlayService.incrementTime, MatchPlayService.stop]

/-- Claim C7 amended: startMatch transitions any state (NotStarted, Paused or
Ended) to Running and touches neither the wall-clock delta reference nor the
virtual time; consequently the first tick after start advances virtual time by
zero exactly when lastFrameTime is 0 (as after reset or seekToTime), not
regardless of prior wall-clock history. -/
theorem start_enters_running (st : MatchPlayService) (now : Rat) :
    st.startMatch.currentState = MatchEvent.InProcess
      ∧ st.startMatch.lastFrameTime = st.lastFrameTime
      ∧ st.startMatch.currentTime = st.currentTime
      ∧ (st.lastFrameTime = 0 →
          (st.startMatch.tick now).currentTime = st.currentTime) := by
  refine ⟨rfl, rfl, rfl, ?_⟩
  intro h0
  simp only [MatchPlayService.startMatch, MatchPlayService.tick, if_true]
  rw [if_pos h0]

def stC7w : MatchPlayService :=
  { currentState := MatchEvent.Ended, currentTime := 42, lastFrameTime := 0
    playbackSpeed := 1, matchDurationMs := 0 }

/-- Witness for the amended C7 at a concrete clock state. -/
theorem start_enters_running_witness :
    stC7w.startMatch.currentState = MatchEvent.InProcess
      ∧ (stC7w.startMatch.tick 300).currentTime = stC7w.currentTime := by
  have h := start_enters_running stC7w 300
  exact ⟨h.1, h.2.2.2 rfl⟩

/-- Claim C8: seekToTime sets virtual time to the target, clears the
wall-clock delta reference, and leaves the state Running exactly when the
state right before the call was not Paused; a Paused clock stays Paused. -/
theorem seek_sets_time_and_state (st : MatchPlayService) (timeMs : Rat) :
    (st.seekToTime timeMs).currentTime = timeMs
      ∧ (st.seekToTime timeMs).lastFrameTime = 0
      ∧ ((st.seekToTime timeMs).currentState = MatchEvent.InProcess
          ↔ st.currentState ≠ MatchEvent.Paused)
      ∧ (st.currentState = MatchEvent.Paused →
          (st.seekToTime timeMs).currentState = MatchEvent.Paused) := by
  by_cases h : st.currentState = MatchEvent.Paused
  · simp [MatchPlayService.seekToTime, h]
  · simp [MatchPlayService.seekToTime, h]

def stC8w : MatchPlayService :=
  { currentState := MatchEvent.Paused, currentTime := 7, lastFrameTime := 33
    playbackSpeed := 1, matchDurationMs := 0 }

/-- Witness for C8 at a concrete Paused clock state. -/
theorem seek_sets_time_and_state_witness :
    (stC8w.seekToTime 500).currentTime = 500
      ∧ (stC8w.seekToTime 500).lastFrameTime = 0
      ∧ (stC8w.seekToTime 500).currentState = MatchEvent.Paused := by
  have h := seek_sets_time_and_state stC8w 500
  exact ⟨h.1, h.2.1, h.2.2.2 rfl⟩

/- ### Cursor and scan lemmas -/

theorem clampCursor_nonneg (len : Nat) (cursor : Int) : 0 ≤ clampCursor len cursor := by
  simp only [clampCursor]
  split <;> split <;> omega

theorem clampCursor_lt_len (len : Nat) (hlen : 0 < len) (cursor : Int) :
    clampCursor len cursor < (len : Int) := by
  by_cases h1 : cursor ≥ (len : Int)
  · simp only [clampCursor, if_pos h1]
    split <;> omega
  · simp only [clampCursor, if_neg h1]
    split <;> omega

theorem clampCursor_eq_self (len : Nat) (cursor : Int) (h0 : 0 ≤ cursor)
    (h1 : cursor < (len : Int)) : clampCursor len cursor = cursor := by
  simp only [clampCursor, if_neg (not_le.mpr h1)]
  rw [if_neg (not_lt.mpr h0)]

theorem scanForwardAux_ge (samples : List ObjectPositionDto) (t : Int) :
    ∀ (fuel : Nat) (ts : Int) (c : Nat), c ≤ scanForwardAux samples t fuel ts c := by
  intro fuel
  induction fuel with
  | zero => intro ts c; exact Nat.le_refl c
  | succ fuel ih =>
    intro ts c
    simp only [scanForwardAux]
    split
    · split
      · exact Nat.le_trans (Nat.le_succ c) (ih _ _)
      · exact Nat.le_succ c
    · exact Nat.le_refl c

theorem scanForwardAux_le (samples : List ObjectPositionDto) (t : Int) :
    ∀ (fuel : Nat) (ts : Int) (c : Nat), c ≤ samples.length - 1 →
      scanForwardAux samples t fuel ts c ≤ samples.length - 1 := by
  intro fuel
  induction fuel with
  | zero => intro ts c h; exact h
  | succ fuel ih =>
    intro ts c h
    simp only [scanForwardAux]
    split
    · next hcond =>
      split
      · exact ih _ _ (by omega)
      · omega
    · exact h

theorem scanForwardAux_all_lt (samples : List ObjectPositionDto) (t : Int) :
    ∀ (fuel : Nat) (c : Nat) (ts : Int),
      (∀ i (hi : i < samples.length), (samples[i]).timestamp < t) →
      (∀ (hc : c < samples.length), ts = (samples[c]).timestamp) →
      c ≤ samples.length - 1 → samples.length - 1 - c ≤ fuel → 0 < samples.length →
      scanForwardAux samples t fuel ts c = samples.length - 1 := by
  intro fuel
  induction fuel with
  | zero =>
    intro c ts _ _ hle hfuel _
    have : c = samples.length - 1 := by omega
    simpa [scanForwardAux] using this
  | succ fuel ih =>
    intro c ts hall hts hle hfuel hpos
    simp only [scanForwardAux]
    by_cases hc : c < samples.length - 1
    · have hclen : c < samples.length := by omega
      have htslt : ts < t := by rw [hts hclen]; exact hall c hclen
      rw [if_pos ⟨htslt, hc⟩]
      have hc1 : c + 1 < samples.length := by omega
      rw [List.getElem?_eq_getElem hc1]
      exact ih (c + 1) _ hall (fun h2 => rfl) (by omega) (by omega) hpos
    · have hceq : c = samples.length - 1 := by omega
      rw [if_neg (by intro hcontra; exact hc hcontra.2)]
      exact hceq

theorem scanForwardAux_inv (samples : List ObjectPositionDto) (t : Int) :
    ∀ (fuel : Nat) (c : Nat) (ts : Int),
      (∀ (hc : c < samples.length), ts = (samples[c]).timestamp) →
      (∀ i (hi : i < samples.length), i < c → (samples[i]).timestamp < t) →
      ∀ i (hi : i < samples.length), i < scanForwardAux samples t fuel ts c →
        (samples[i]).timestamp < t := by
  intro fuel
  induction fuel with
  | zero =>
    intro c ts _ hinv i hi hlt
    exact hinv i hi (by simpa [scanForwardAux] using hlt)
  | succ fuel ih =>
    intro c ts hts hinv i hi hlt
    simp only [scanForwardAux] at hlt
    by_cases hcond : ts < t ∧ c < samples.length - 1
    · rw [if_pos hcond] at hlt
      have hc1 : c + 1 < samples.length := by omega
      have hclen : c < samples.length := by omega
      have hnext : ∀ j (hj : j < samples.length), j < c + 1 →
          (samples[j]).timestamp < t := by
        intro j hj hjc
        rcases Nat.lt_or_ge j c with h | h
        · exact hinv j hj h
        · have : j = c := by omega
          subst this
          rw [← hts hj]
          exact hcond.1
      rw [List.getElem?_eq_getElem hc1] at hlt
      exact ih (c + 1) _ (fun h2 => rfl) hnext i hi hlt
    · rw [if_neg hcond] at hlt
      exact hinv i hi hlt

/- ### resolveTrack characterizations -/

theorem getElem?_some_pos {samples : List ObjectPositionDto} {i : Nat}
    {d : ObjectPositionDto} (h : samples[i]? = some d) : 0 < samples.length := by
  by_contra hc
  rw [List.getElem?_eq_none (by omega)] at h
  cases h

theorem resolveTrack_all_lt (samples : List ObjectPositionDto) (t cursor : Int)
    (hne : samples ≠ [])
    (hall : ∀ i (hi : i < samples.length), (samples[i]).timestamp < t) :
    resolveTrack samples t cursor
      = (samples.getLast?, ((samples.length - 1 : Nat) : Int)) := by
  have hpos : 0 < samples.length := List.length_pos.mpr hne
  have hc0nn := clampCursor_nonneg samples.length cursor
  have hc0lt := clampCursor_lt_len samples.length hpos cursor
  have hc0 : (clampCursor samples.length cursor).toNat < samples.length := by omega
  have hlast : samples.getLast? = samples[samples.length - 1]? :=
    List.getLast?_eq_getElem? samples
  simp only [resolveTrack]
  rw [List.getElem?_eq_getElem hc0]
  dsimp only
  have hscan : ∀ (c : Nat) (hle : c < samples.length),
      scanForward samples t ((samples[c]).timestamp) c = samples.length - 1 := by
    intro c hle
    exact scanForwardAux_all_lt samples t samples.length c _ hall
      (fun h2 => rfl) (by omega) (by omega) hpos
  by_cases hr : (samples[(clampCursor samples.length cursor).toNat]).timestamp > t ∨
      t - (samples[(clampCursor samples.length cursor).toNat]).timestamp > 60000
  · rw [if_pos hr, List.getElem?_eq_getElem hpos]
    dsimp only
    rw [hscan 0 hpos, Nat.min_self, hlast]
  · rw [if_neg hr, List.getElem?_eq_getElem hc0]
    dsimp only
    rw [hscan _ hc0, Nat.min_self, hlast]

/-- Claim C2: for a non-empty timestamp-ordered ball sample sequence and a
requested time strictly past the last sample timestamp, the per-track
resolution of getData returns the last sample (at index length - 1) for any
starting cursor: the cursor is clamped, the scan stops at the last index, and
no out-of-bounds access occurs.  The same function is applied by getData to
the ball track and to every player track. -/
theorem resolve_clamp_at_end (samples : List ObjectPositionDto) (t cursor : Int)
    (dLast : ObjectPositionDto)
    (hne : samples ≠ [])
    (hsort : samples.Pairwise (fun a b => a.timestamp ≤ b.timestamp))
    (hl : samples.getLast? = some dLast)
    (hlt : dLast.timestamp < t) :
    resolveTrack samples t cursor
      = (some dLast, ((samples.length - 1 : Nat) : Int)) := by
  have hpos : 0 < samples.length := List.length_pos.mpr hne
  have hg : samples.getLast? = samples[samples.length - 1]? :=
    List.getLast?_eq_getElem? samples
  have hlem : samples[samples.length - 1]? = some dLast := by rw [← hg]; exact hl
  have hlastval : samples[samples.length - 1] = dLast := by
    have := List.getElem?_eq_getElem (l := samples) (n := samples.length - 1) (by omega)
    rw [this] at hlem
    exact Option.some.inj hlem
  have hall : ∀ i (hi : i < samples.length), (samples[i]).timestamp < t := by
    intro i hi
    rcases Nat.lt_or_ge i (samples.length - 1) with h | h
    · have hle := List.pairwise_iff_getElem.mp hsort i (samples.length - 1)
        hi (by omega) h
      rw [hlastval] at hle
      exact lt_of_le_of_lt hle hlt
    · have : i = samples.length - 1 := by omega
      subst this
      rw [hlastval]
      exact hlt
  rw [resolveTrack_all_lt samples t cursor hne hall, hg, hlem]

def samplesC2w : List ObjectPositionDto := [⟨0, []⟩, ⟨100, []⟩]

/-- Witness for C2: resolving far past the end of a two-sample track from an
out-of-range cursor yields the last sample. -/
theorem resolve_clamp_at_end_witness :
    resolveTrack samplesC2w 150 5 = (some ⟨100, []⟩, 1) := by
  have h := resolve_clamp_at_end samplesC2w 150 5 ⟨100, []⟩ (by decide)
    (by decide) (by decide) (by decide)
  simpa [samplesC2w] using h

theorem resolveTrack_reset_eq (samples : List ObjectPositionDto) (t cursor : Int)
    (d0 : ObjectPositionDto) (hpos : 0 < samples.length)
    (h0 : samples[(clampCursor samples.length cursor).toNat]? = some d0)
    (hreset : d0.timestamp > t ∨ t - d0.timestamp > 60000) :
    resolveTrack samples t cursor
      = (samples[min (scanForward samples t ((samples[0]).timestamp) 0)
            (samples.length - 1)]?,
         ((scanForward samples t ((samples[0]).timestamp) 0 : Nat) : Int)) := by
  simp only [resolveTrack]
  rw [h0]
  dsimp only
  rw [if_pos hreset, List.getElem?_eq_getElem hpos]

theorem resolveTrack_zero_eq (samples : List ObjectPositionDto) (t : Int)
    (hpos : 0 < samples.length) :
    resolveTrack samples t 0
      = (samples[min (scanForward samples t ((samples[0]).timestamp) 0)
            (samples.length - 1)]?,
         ((scanForward samples t ((samples[0]).timestamp) 0 : Nat) : Int)) := by
  have hcl : clampCursor samples.length 0 = 0 :=
    clampCursor_eq_self _ 0 (le_refl 0) (by exact_mod_cast hpos)
  simp only [resolveTrack, hcl, Int.toNat_zero]
  rw [List.getElem?_eq_getElem hpos]
  dsimp only
  simp only [ite_self]
  rw [List.getElem?_eq_getElem hpos]

def samplesC1 : List ObjectPositionDto := [⟨0, []⟩, ⟨100, []⟩]

/-- Claim C1 counterexample: on the track with samples at 0 and 100 ms and the
cursor at index 1 (timestamp 100), resolving at t = 50 triggers the backward
seek reset (100 > 50), yet the forward scan then stops at the first sample
with timestamp at or past 50 and returns the sample at 100 ms, which is
strictly later than the correct nearest-at-or-before-50 sample (timestamp 0).
The reset to index 0 therefore does not make the resolver return a sample no
later than the nearest-at-or-before sample. -/
theorem resolve_reset_counterexample :
    ((resolveTrack samplesC1 50 1).1.map ObjectPositionDto.timestamp = some 100)
      ∧ ((specNearestAtOrBefore samplesC1 50).map ObjectPositionDto.timestamp
          = some 0)
      ∧ ¬((100 : Int) ≤ 0) := by decide

/-- Claim C1 amended: whenever the sample at the clamped cursor is ahead of
the requested time or more than 60000 ms behind it, getData resets the cursor
to index 0 before the forward scan begins (resolution behaves exactly as if
the stored cursor had been 0), and every sample strictly before the resolved
cursor has timestamp below the requested time — the resolver never skips past
an unvisited sample with timestamp at or past t, though the resolved sample
itself may be one position after (hence later than) the nearest-at-or-before-t
sample.  getData applies this same function to the ball track and to every
player track. -/
theorem resolve_reset_rule (samples : List ObjectPositionDto) (t cursor : Int)
    (d0 : ObjectPositionDto)
    (h0 : samples[(clampCursor samples.length cursor).toNat]? = some d0)
    (hreset : d0.timestamp > t ∨ t - d0.timestamp > 60000) :
    resolveTrack samples t cursor = resolveTrack samples t 0
      ∧ ∀ i (hi : i < samples.length),
          (i : Int) < (resolveTrack samples t cursor).2 →
          (samples[i]).timestamp < t := by
  have hpos : 0 < samples.length := getElem?_some_pos h0
  have heq1 := resolveTrack_reset_eq samples t cursor d0 hpos h0 hreset
  have heq2 := resolveTrack_zero_eq samples t hpos
  constructor
  · rw [heq1, heq2]
  · intro i hi hlt
    rw [heq1] at hlt
    dsimp only at hlt
    have hlt2 : i < scanForward samples t ((samples[0]).timestamp) 0 := by
      exact_mod_cast hlt
    exact scanForwardAux_inv samples t samples.length 0 _
      (fun h2 => rfl) (fun j hj hj0 => absurd hj0 (Nat.not_lt_zero j))
      i hi hlt2

def samplesC1w : List ObjectPositionDto := [⟨0, []⟩, ⟨100, []⟩, ⟨200, []⟩]

/-- Witness for the amended C1: the cursor sits at index 2 (timestamp 200),
resolving at t = 150 resets to 0 and resolves exactly as from cursor 0. -/
theorem resolve_reset_rule_witness :
    resolveTrack samplesC1w 150 2 = resolveTrack samplesC1w 150 0
      ∧ (samplesC1w[0]).timestamp < 150 := by
  have h := resolve_reset_rule samplesC1w 150 2 ⟨200, []⟩ (by decide)
    (by decide)
  refine ⟨h.1, ?_⟩
  exact h.2 0 (by decide) (by decide)

/- ### Monotone resolve (C3) -/

theorem resolveTrack_noreset (samples : List ObjectPositionDto) (t cursor : Int)
    (h : noResetAt samples t cursor = true) :
    0 < samples.length
      ∧ clampCursor samples.length cursor ≤ (resolveTrack samples t cursor).2
      ∧ 0 ≤ (resolveTrack samples t cursor).2
      ∧ (resolveTrack samples t cursor).2 ≤ (samples.length : Int) - 1 := by
  unfold noResetAt at h
  cases heq : samples[(clampCursor samples.length cursor).toNat]? with
  | none => rw [heq] at h; cases h
  | some d =>
    rw [heq] at h
    have hnor : ¬(d.timestamp > t ∨ t - d.timestamp > 60000) := by
      intro hor
      rcases hor with h1 | h1 <;> simp [h1] at h
    have hpos : 0 < samples.length := getElem?_some_pos heq
    have hc0nn := clampCursor_nonneg samples.length cursor
    have hc0lt := clampCursor_lt_len samples.length hpos cursor
    have hres : resolveTrack samples t cursor
        = (samples[min (scanForward samples t d.timestamp
              ((clampCursor samples.length cursor).toNat)) (samples.length - 1)]?,
           ((scanForward samples t d.timestamp
              ((clampCursor samples.length cursor).toNat) : Nat) : Int)) := by
      simp only [resolveTrack]
      rw [heq]
      dsimp only
      rw [if_neg hnor, heq]
    rw [hres]
    dsimp only
    have hge := scanForwardAux_ge samples t samples.length d.timestamp
      ((clampCursor samples.length cursor).toNat)
    have hle := scanForwardAux_le samples t samples.length d.timestamp
      ((clampCursor samples.length cursor).toNat) (by omega)
    unfold scanForward
    refine ⟨hpos, ?_, ?_, ?_⟩ <;> omega

theorem resolveSeq_chain_aux (samples : List ObjectPositionDto) :
    ∀ (times : List Int) (cursor : Int), 0 ≤ cursor →
      cursor ≤ (samples.length : Int) - 1 →
      noResetSeq samples cursor times = true →
      List.Chain' (· ≤ ·) (cursor :: resolveSeq samples cursor times) := by
  intro times
  induction times with
  | nil => intro cursor _ _ _; simp [resolveSeq]
  | cons t rest ih =>
    intro cursor h0 h1 hnr
    simp only [noResetSeq, Bool.and_eq_true] at hnr
    obtain ⟨hna, hrest⟩ := hnr
    obtain ⟨hpos, hge, hc0, hc1⟩ := resolveTrack_noreset samples t cursor hna
    have hclamp : clampCursor samples.length cursor = cursor :=
      clampCursor_eq_self _ _ h0 (by omega)
    simp only [resolveSeq]
    rw [List.chain'_cons]
    rw [hclamp] at hge
    exact ⟨hge, ih _ hc0 hc1 hrest⟩

/-- Claim C3: on a timestamp-ordered track, successive getData resolutions at
non-decreasing times that never trigger the reset rule (cursor sample neither
ahead of the requested time nor more than 60000 ms behind it) produce a
non-decreasing sequence of resolved cursor indices. -/
theorem resolve_monotone (samples : List ObjectPositionDto) (cursor : Int)
    (times : List Int)
    (_hsort : samples.Pairwise (fun a b => a.timestamp ≤ b.timestamp))
    (_htimes : times.Chain' (· ≤ ·))
    (hnr : noResetSeq samples cursor times = true) :
    List.Chain' (· ≤ ·) (resolveSeq samples cursor times) := by
  cases times with
  | nil => simp [resolveSeq]
  | cons t rest =>
    simp only [noResetSeq, Bool.and_eq_true] at hnr
    obtain ⟨hna, hrest⟩ := hnr
    obtain ⟨hpos, hge, hc0, hc1⟩ := resolveTrack_noreset samples t cursor hna
    simp only [resolveSeq]
    exact resolveSeq_chain_aux samples rest _ hc0 hc1 hrest

def samplesC3w : List ObjectPositionDto := [⟨0, []⟩, ⟨10, []⟩, ⟨20, []⟩]

/-- Witness for C3: three in-order resolutions on an ordered three-sample
track with no reset triggered give non-decreasing resolved indices. -/
theorem resolve_monotone_witness :
    List.Chain' (· ≤ ·) (resolveSeq samplesC3w 0 [5, 15, 25]) :=
  resolve_monotone samplesC3w 0 [5, 15, 25] (by decide)
    (by norm_num [List.chain'_cons]) (by decide)

/- ### reset (C9) and empty-track resolution (C10) -/

def mC9 : MatchDto :=
  { ball := { objX := 0, objY := 0, objScale := 1, currentCoordIdx := 5 }
    players := [{ id := 7, objX := 0, objY := 0, currentCoordIdx := 3 }] }

def stC9 : MatchDataServiceState :=
  { matchRef := some mC9
    matchData := some { players := [], ball := [⟨0, []⟩] }
    loadedChunks := [0, 1], chunkDurationMs := 10000, width := 0, height := 0 }

/-- Claim C9 counterexample: reset() empties the loaded-chunk set and drops
matchData, but the ball cursor (5) and the player cursor (3) stored on the
match DTO keep their values instead of returning to the initial value 0:
reset does not clear the entity cursors. -/
theorem data_reset_counterexample :
    (MatchDataService.reset stC9).loadedChunks = []
      ∧ (MatchDataService.reset stC9).matchData = none
      ∧ ((MatchDataService.reset stC9).matchRef.map
          fun m => m.ball.currentCoordIdx) = some 5
      ∧ ((MatchDataService.reset stC9).matchRef.map
          fun m => m.players.map MatchPlayerDto.currentCoordIdx) = some [3]
      ∧ (5 : Int) ≠ 0 ∧ (3 : Int) ≠ 0 := by decide

/-- Claim C9 amended: MatchDataService.reset() empties the loaded-chunk set,
zeroes the chunk duration and drops all track data (matchData becomes null),
but it leaves the match DTO untouched, so the ball cursor and the player
cursors keep whatever values they had instead of being cleared to 0. -/
theorem data_reset_clears_store (st : MatchDataServiceState) :
    (MatchDataService.reset st).loadedChunks = []
      ∧ (MatchDataService.reset st).chunkDurationMs = 0
      ∧ (MatchDataService.reset st).matchData = none
      ∧ (MatchDataService.reset st).matchRef = st.matchRef :=
  ⟨rfl, rfl, rfl, rfl⟩

/-- Claim C10: when the stored ball sample sequence is empty (so the sample at
the clamped cursor index is absent), getData returns null at every requested
time instead of indexing out of bounds, and refreshData then returns without
touching any ball or player graphics position (only the ball cursor is
clamped to 0). -/
theorem getData_empty_ball_null (m : MatchDto) (md : MatchDataDto)
    (width height : Rat) (t : Int) (hb : md.ball = []) :
    (MatchDataService.getData m md t).1 = none
      ∧ (MatchDataService.refreshData width height m md t).ball.objX = m.ball.objX
      ∧ (MatchDataService.refreshData width height m md t).ball.objY = m.ball.objY
      ∧ (MatchDataService.refreshData width height m md t).ball.objScale
          = m.ball.objScale
      ∧ (MatchDataService.refreshData width height m md t).players = m.players := by
  have hcl : clampCursor 0 m.ball.currentCoordIdx = 0 := by
    simp only [clampCursor, Nat.cast_zero]
    split <;> split <;> omega
  have hres : resolveTrack md.ball t m.ball.currentCoordIdx = (none, 0) := by
    rw [hb]
    simp [resolveTrack, hcl]
  have hget : MatchDataService.getData m md t
      = (none, { m with ball := { m.ball with currentCoordIdx := 0 } }) := by
    simp only [MatchDataService.getData, hres]
  have hrefresh : MatchDataService.refreshData width height m md t
      = { m with ball := { m.ball with currentCoordIdx := 0 } } := by
    simp only [MatchDataService.refreshData, hget]
  rw [hget, hrefresh]
  exact ⟨rfl, rfl, rfl, rfl, rfl⟩

def mC10w : MatchDto :=
  { ball := { objX := 1, objY := 2, objScale := 1, currentCoordIdx := 4 }
    players := [{ id := 7, objX := 3, objY := 4, currentCoordIdx := 2 }] }

def mdC10w : MatchDataDto := { players := [(7, [⟨0, []⟩])], ball := [] }

/-- Witness for C10 on a concrete store with an empty ball track. -/
theorem getData_empty_ball_null_witness :
    (MatchDataService.getData mC10w mdC10w 500).1 = none
      ∧ (MatchDataService.refreshData 1400 950 mC10w mdC10w 500).ball.objX
          = mC10w.ball.objX
      ∧ (MatchDataService.refreshData 1400 950 mC10w mdC10w 500).players
          = mC10w.players := by
  have h := getData_empty_ball_null mC10w mdC10w 1400 950 500 rfl
  exact ⟨h.1, h.2.1, h.2.2.2.2⟩

/- ### Merge lemmas (C4) -/

theorem appendToKey_head_fst (p : Nat × List ObjectPositionDto) (k : Nat)
    (v : List ObjectPositionDto) :
    (if p.1 = k then (p.1, p.2 ++ v) else p).1 = p.1 := by
  split <;> rfl

theorem containsKey_appendToKey (ps : List (Nat × List ObjectPositionDto))
    (k k2 : Nat) (v : List ObjectPositionDto) :
    containsKey (appendToKey ps k v) k2 = containsKey ps k2 := by
  induction ps with
  | nil => rfl
  | cons p rest ih =>
    simp only [appendToKey, List.map_cons, containsKey, List.any_cons] at ih ⊢
    rw [appendToKey_head_fst p k v, ih]

theorem containsKey_append_single (ps : List (Nat × List ObjectPositionDto))
    (kv : Nat × List ObjectPositionDto) (k2 : Nat) :
    containsKey (ps ++ [kv]) k2 = (containsKey ps k2 || decide (kv.1 = k2)) := by
  simp [containsKey, List.any_append]

theorem containsKey_mergePlayers_mono
    (chunk : List (Nat × List ObjectPositionDto)) :
    ∀ (store : List (Nat × List ObjectPositionDto)) (k : Nat),
      containsKey store k = true → containsKey (mergePlayers store chunk) k = true := by
  induction chunk with
  | nil => intro store k h; exact h
  | cons kv rest ih =>
    intro store k h
    simp only [mergePlayers, List.foldl_cons] at ih ⊢
    by_cases hc : containsKey store kv.1 = true
    · rw [if_pos hc]
      exact ih _ k (by rw [containsKey_appendToKey]; exact h)
    · rw [if_neg hc]
      exact ih _ k (by rw [containsKey_append_single, h, Bool.true_or])

theorem containsKey_mergePlayers_of_mem
    (chunk : List (Nat × List ObjectPositionDto)) :
    ∀ (store : List (Nat × List ObjectPositionDto))
      (kv : Nat × List ObjectPositionDto), kv ∈ chunk →
      containsKey (mergePlayers store chunk) kv.1 = true := by
  induction chunk with
  | nil => intro store kv h; cases h
  | cons kv0 rest ih =>
    intro store kv h
    simp only [mergePlayers, List.foldl_cons] at ih ⊢
    rcases List.mem_cons.mp h with h | h
    · subst h
      by_cases hc : containsKey store kv.1 = true
      · rw [if_pos hc]
        exact containsKey_mergePlayers_mono rest _ kv.1
          (by rw [containsKey_appendToKey]; exact hc)
      · rw [if_neg hc]
        exact containsKey_mergePlayers_mono rest _ kv.1
          (by rw [containsKey_append_single]; simp)
    · split
      · exact ih _ kv h
      · exact ih _ kv h

theorem appendToKey_cons (p : Nat × List ObjectPositionDto)
    (rest : List (Nat × List ObjectPositionDto)) (k : Nat)
    (v : List ObjectPositionDto) :
    appendToKey (p :: rest) k v
      = (if p.1 = k then (p.1, p.2 ++ v) else p) :: appendToKey rest k v := rfl

theorem find?_appendToKey_ne (ps : List (Nat × List ObjectPositionDto))
    (k k2 : Nat) (v : List ObjectPositionDto) (hne : k2 ≠ k) :
    (appendToKey ps k v).find? (fun p => p.1 = k2)
      = ps.find? (fun p => p.1 = k2) := by
  induction ps with
  | nil => rfl
  | cons p rest ih =>
    rw [appendToKey_cons]
    by_cases hp : p.1 = k
    · have hp2 : ¬(p.1 = k2) := by
        rw [hp]; exact fun h => hne h.symm
      rw [if_pos hp, List.find?_cons_of_neg _ (by simpa using hp2),
        List.find?_cons_of_neg _ (by simpa using hp2)]
      exact ih
    · rw [if_neg hp]
      by_cases hp2 : p.1 = k2
      · rw [List.find?_cons_of_pos _ (by simpa using hp2),
          List.find?_cons_of_pos _ (by simpa using hp2)]
      · rw [List.find?_cons_of_neg _ (by simpa using hp2),
          List.find?_cons_of_neg _ (by simpa using hp2)]
        exact ih

theorem find?_appendToKey_self (ps : List (Nat × List ObjectPositionDto))
    (k : Nat) (v : List ObjectPositionDto) :
    ∀ (e : Nat × List ObjectPositionDto),
      ps.find? (fun p => p.1 = k) = some e →
      (appendToKey ps k v).find? (fun p => p.1 = k) = some (e.1, e.2 ++ v) := by
  induction ps with
  | nil => intro e h; cases h
  | cons p rest ih =>
    intro e h
    rw [appendToKey_cons]
    by_cases hp : p.1 = k
    · rw [List.find?_cons_of_pos _ (by simpa using hp)] at h
      cases h
      rw [if_pos hp, List.find?_cons_of_pos _ (by simpa using hp)]
    · rw [List.find?_cons_of_neg _ (by simpa using hp)] at h
      rw [if_neg hp, List.find?_cons_of_neg _ (by simpa using hp)]
      exact ih e h

theorem find?_append_single_ne (ps : List (Nat × List ObjectPositionDto))
    (kv : Nat × List ObjectPositionDto) (k2 : Nat) (hne : kv.1 ≠ k2) :
    (ps ++ [kv]).find? (fun p => p.1 = k2) = ps.find? (fun p => p.1 = k2) := by
  induction ps with
  | nil =>
    rw [List.nil_append, List.find?_cons_of_neg _ (by simpa using hne)]
  | cons p rest ih =>
    by_cases hp : p.1 = k2
    · rw [List.cons_append, List.find?_cons_of_pos _ (by simpa using hp),
        List.find?_cons_of_pos _ (by simpa using hp)]
    · rw [List.cons_append, List.find?_cons_of_neg _ (by simpa using hp),
        List.find?_cons_of_neg _ (by simpa using hp)]
      exact ih

theorem mergePlayers_cons (store : List (Nat × List ObjectPositionDto))
    (kv : Nat × List ObjectPositionDto)
    (rest : List (Nat × List ObjectPositionDto)) :
    mergePlayers store (kv :: rest)
      = mergePlayers
          (if containsKey store kv.1 then appendToKey store kv.1 kv.2
            else store ++ [kv]) rest := rfl

theorem lookupSeq_appendToKey_self (ps : List (Nat × List ObjectPositionDto))
    (k : Nat) (v : List ObjectPositionDto) (hc : containsKey ps k = true) :
    lookupSeq (appendToKey ps k v) k = lookupSeq ps k ++ v := by
  have hsome : (ps.find? (fun p => p.1 = k)).isSome := by
    rw [List.find?_isSome]
    obtain ⟨x, hx, hpx⟩ := List.any_eq_true.mp hc
    exact ⟨x, hx, hpx⟩
  obtain ⟨e, he⟩ := Option.isSome_iff_exists.mp hsome
  simp only [lookupSeq, he, find?_appendToKey_self ps k v e he, Option.map_some']
  rfl

theorem lookupSeq_mergePlayers_not_mem
    (chunk : List (Nat × List ObjectPositionDto)) :
    ∀ (store : List (Nat × List ObjectPositionDto)) (k2 : Nat),
      (∀ kv ∈ chunk, kv.1 ≠ k2) →
      lookupSeq (mergePlayers store chunk) k2 = lookupSeq store k2 := by
  induction chunk with
  | nil => intro store k2 _; rfl
  | cons kv rest ih =>
    intro store k2 hk
    have hkv : kv.1 ≠ k2 := hk kv (List.mem_cons_self _ _)
    have hrest : ∀ kv2 ∈ rest, kv2.1 ≠ k2 :=
      fun kv2 h2 => hk kv2 (List.mem_cons_of_mem _ h2)
    rw [mergePlayers_cons]
    by_cases hc : containsKey store kv.1 = true
    · rw [if_pos hc, ih _ k2 hrest]
      simp only [lookupSeq]
      rw [find?_appendToKey_ne store kv.1 k2 kv.2 (fun h => hkv h.symm)]
    · rw [if_neg hc, ih _ k2 hrest]
      simp only [lookupSeq]
      rw [find?_append_single_ne store kv k2 hkv]

theorem lookupSeq_mergePlayers_mem
    (chunk : List (Nat × List ObjectPositionDto)) :
    ∀ (store : List (Nat × List ObjectPositionDto)),
      (chunk.map Prod.fst).Nodup →
      (∀ kv2 ∈ chunk, containsKey store kv2.1 = true) →
      ∀ kv ∈ chunk,
        lookupSeq (mergePlayers store chunk) kv.1
          = lookupSeq store kv.1 ++ kv.2 := by
  induction chunk with
  | nil => intro store _ _ kv h; cases h
  | cons kv0 rest ih =>
    intro store hnodup hkeys kv hkv
    have hc0 : containsKey store kv0.1 = true := hkeys kv0 (List.mem_cons_self _ _)
    rw [List.map_cons, List.nodup_cons] at hnodup
    obtain ⟨hnotin, hnodup2⟩ := hnodup
    rw [mergePlayers_cons, if_pos hc0]
    rcases List.mem_cons.mp hkv with h | h
    · subst h
      have hni : ∀ kv2 ∈ rest, kv2.1 ≠ kv.1 := by
        intro kv2 h2 heq
        exact hnotin (heq ▸ List.mem_map_of_mem Prod.fst h2)
      rw [lookupSeq_mergePlayers_not_mem rest _ kv.1 hni]
      exact lookupSeq_appendToKey_self store kv.1 kv.2 hc0
    · have hkeys2 : ∀ kv2 ∈ rest,
          containsKey (appendToKey store kv0.1 kv0.2) kv2.1 = true := by
        intro kv2 h2
        rw [containsKey_appendToKey]
        exact hkeys kv2 (List.mem_cons_of_mem _ h2)
      rw [ih (appendToKey store kv0.1 kv0.2) hnodup2 hkeys2 kv h]
      have hne : kv.1 ≠ kv0.1 := by
        intro heq
        exact hnotin (heq ▸ List.mem_map_of_mem Prod.fst h)
      simp only [lookupSeq]
      rw [find?_appendToKey_ne store kv0.1 kv.1 kv0.2 hne]

theorem insertChunk_idem (s : List Nat) (n : Nat) :
    insertChunk (insertChunk s n) n = insertChunk s n := by
  by_cases h : s.contains n = true
  · have h1 : insertChunk s n = s := by rw [insertChunk, if_pos h]
    rw [h1, h1]
  · have h1 : insertChunk s n = s ++ [n] := by rw [insertChunk, if_neg h]
    have hc : (s ++ [n]).contains n = true := by simp
    rw [h1, insertChunk, if_pos hc]

def mdC4 : MatchDataDto :=
  { players := [(1, [⟨0, []⟩])], ball := [⟨0, []⟩] }

def stC4 : MatchDataServiceState :=
  { matchRef := none
    matchData := some mdC4
    loadedChunks := [0], chunkDurationMs := 10000, width := 0, height := 0 }

def chunkC4 : MatchDataDto :=
  { players := [(1, [⟨100, []⟩])], ball := [⟨100, []⟩] }

/-- Claim C4 counterexample: on a store that already holds data, merging the
same chunk (number 1) twice duplicates both the ball samples and player 1
samples — the resulting sequences differ from those after a single merge, so
the merge is not idempotent on sample data. -/
theorem merge_idempotent_counterexample :
    ((MatchDataService.mergeMatchData
          (MatchDataService.mergeMatchData stC4 chunkC4 1) chunkC4 1).matchData.map
        MatchDataDto.ball
      ≠ (MatchDataService.mergeMatchData stC4 chunkC4 1).matchData.map
        MatchDataDto.ball)
    ∧ ((MatchDataService.mergeMatchData
          (MatchDataService.mergeMatchData stC4 chunkC4 1) chunkC4 1).matchData.map
        MatchDataDto.players
      ≠ (MatchDataService.mergeMatchData stC4 chunkC4 1).matchData.map
        MatchDataDto.players) := by decide

/-- Claim C4 amended: merging the same chunk twice on a store that already
holds data is not idempotent on the sample sequences — the second merge
appends the chunk ball samples again and appends each chunk player sequence to
that player track again; only the loaded-chunk set is unchanged by the
repeated merge. -/
theorem merge_twice_appends (st : MatchDataServiceState)
    (md chunkData : MatchDataDto) (chunkNumber : Nat)
    (hmd : st.matchData = some md)
    (hnodup : (chunkData.players.map Prod.fst).Nodup) :
    (MatchDataService.mergeMatchData
        (MatchDataService.mergeMatchData st chunkData chunkNumber)
        chunkData chunkNumber).loadedChunks
      = (MatchDataService.mergeMatchData st chunkData chunkNumber).loadedChunks
    ∧ ((MatchDataService.mergeMatchData
        (MatchDataService.mergeMatchData st chunkData chunkNumber)
        chunkData chunkNumber).matchData.map MatchDataDto.ball)
      = ((MatchDataService.mergeMatchData st chunkData
          chunkNumber).matchData.map (fun d => d.ball ++ chunkData.ball))
    ∧ ∀ kv ∈ chunkData.players,
        lookupSeq (((MatchDataService.mergeMatchData
            (MatchDataService.mergeMatchData st chunkData chunkNumber)
            chunkData chunkNumber).matchData.map MatchDataDto.players).getD [])
          kv.1
        = lookupSeq (((MatchDataService.mergeMatchData st chunkData
            chunkNumber).matchData.map MatchDataDto.players).getD []) kv.1
          ++ kv.2 := by
  have h1 : MatchDataService.mergeMatchData st chunkData chunkNumber
      = { st with
          matchData := some
            { players := mergePlayers md.players chunkData.players
              ball := if chunkData.ball.length > 0 then md.ball ++ chunkData.ball
                else md.ball }
          loadedChunks := insertChunk st.loadedChunks chunkNumber } := by
    simp only [MatchDataService.mergeMatchData, hmd]
  have h2 : MatchDataService.mergeMatchData
        (MatchDataService.mergeMatchData st chunkData chunkNumber)
        chunkData chunkNumber
      = { st with
          matchData := some
            { players := mergePlayers (mergePlayers md.players chunkData.players)
                chunkData.players
              ball := if chunkData.ball.length > 0 then
                  (if chunkData.ball.length > 0 then md.ball ++ chunkData.ball
                    else md.ball) ++ chunkData.ball
                else (if chunkData.ball.length > 0 then md.ball ++ chunkData.ball
                  else md.ball) }
          loadedChunks := insertChunk (insertChunk st.loadedChunks chunkNumber)
            chunkNumber } := by
    rw [h1]
    simp only [MatchDataService.mergeMatchData]
  refine ⟨?_, ?_, ?_⟩
  · rw [h2, h1]
    exact insertChunk_idem st.loadedChunks chunkNumber
  · rw [h2, h1]
    simp only [Option.map_some']
    by_cases hb : chunkData.ball.length > 0
    · simp only [if_pos hb]
    · simp only [if_neg hb]
      have hbe : chunkData.ball = [] := by
        rcases hx : chunkData.ball with _ | ⟨a, l⟩
        · rfl
        · rw [hx] at hb
          exact absurd (by simp) hb
      rw [hbe, List.append_nil]
  · intro kv hkv
    rw [h2, h1]
    simp only [Option.map_some', Option.getD_some]
    exact lookupSeq_mergePlayers_mem chunkData.players
      (mergePlayers md.players chunkData.players) hnodup
      (fun kv2 h2 =>
        containsKey_mergePlayers_of_mem chunkData.players md.players kv2 h2)
      kv hkv

/-- Witness for the amended C4 at the concrete store and chunk of the
counterexample. -/
theorem merge_twice_appends_witness :
    (MatchDataService.mergeMatchData
        (MatchDataService.mergeMatchData stC4 chunkC4 1) chunkC4 1).loadedChunks
      = (MatchDataService.mergeMatchData stC4 chunkC4 1).loadedChunks
    ∧ ((MatchDataService.mergeMatchData
        (MatchDataService.mergeMatchData stC4 chunkC4 1) chunkC4 1).matchData.map
          MatchDataDto.ball)
      = ((MatchDataService.mergeMatchData stC4 chunkC4 1).matchData.map
          (fun d => d.ball ++ chunkC4.ball))
    ∧ lookupSeq (((MatchDataService.mergeMatchData
          (MatchDataService.mergeMatchData stC4 chunkC4 1) chunkC4
          1).matchData.map MatchDataDto.players).getD []) 1
        = lookupSeq (((MatchDataService.mergeMatchData stC4 chunkC4
            1).matchData.map MatchDataDto.players).getD []) 1
          ++ [⟨100, []⟩] := by
  have h := merge_twice_appends stC4 mdC4 chunkC4 1 rfl (by decide)
  exact ⟨h.1, h.2.1, h.2.2 (1, [⟨100, []⟩]) (by decide)⟩
